import Mathlib

/-!
Verification of the dsr-calendar engine: a shallow embedding of the
moon-phase calculator, eclipse engine, calendar clock and era mapper
from `scripts/moon-engine.js` and the eclipse-engine source, with
theorems settling the specification claims.

Conventions of the embedding:
* JavaScript `Math.floor(a / b)` is `Int.fdiv`, JavaScript `%` is
  `Int.tmod` (truncated remainder, sign of the dividend).
* Numbers that the source manipulates exactly (days, cycle positions,
  counters) are `ℤ`/`ℕ`; fractional phase values are `ℚ`; the
  transcendental illumination/duration formulas use `ℝ` with Mathlib's
  `round` (which, like JavaScript `Math.round`, is `⌊x + 1/2⌋`).
* Fallible lookups (`months[month]` that may be `undefined`, a search
  that may return `null`) are `Option`.
-/

namespace DSR

/-! ### MoonPhaseCalculator (scripts/moon-engine.js lines 15-223) -/

/-- A moon as configured for the `MoonPhaseCalculator` constructor:
synodic period in days, total calendar day of the first new moon, and
the phase offset read from the JSON configuration (default 0). -/
structure Moon where
  period : ℤ
  firstNewMoonDay : ℤ
  offset : ℚ

/-- The constructor validation of `MoonPhaseCalculator`: positive
integer period and offset in `[0, 1)`. -/
def Moon.Valid (m : Moon) : Prop :=
  0 < m.period ∧ 0 ≤ m.offset ∧ m.offset < 1

/-- `getCycleDay`: days since the first new moon, reduced modulo the
period with the JavaScript remainder, then shifted into `[0, period)`
when negative. -/
def getCycleDay (m : Moon) (totalCalendarDay : ℤ) : ℤ :=
  let cycleDay := Int.tmod (totalCalendarDay - m.firstNewMoonDay) m.period
  if cycleDay < 0 then cycleDay + m.period else cycleDay

/-- `getPhase`: cycle day over period, plus the offset, wrapped back
into `[0, 1)` by the two conditional adjustments of the source. -/
def getPhase (m : Moon) (totalCalendarDay : ℤ) : ℚ :=
  let basePhase : ℚ := (getCycleDay m totalCalendarDay : ℚ) / (m.period : ℚ)
  let adjusted := basePhase + m.offset
  let adjusted := if 1 ≤ adjusted then adjusted - 1 else adjusted
  if adjusted < 0 then adjusted + 1 else adjusted

/-- `isFull`: the source tests the phase against the band around 0,
`phase < tolerance || phase > 1 - tolerance`. -/
def isFull (m : Moon) (totalCalendarDay : ℤ) (tolerance : ℚ) : Bool :=
  decide (getPhase m totalCalendarDay < tolerance) ||
    decide (1 - tolerance < getPhase m totalCalendarDay)

/-- `isNew`: `|phase - 0| < tolerance || |phase - 1| < tolerance`. -/
def isNew (m : Moon) (totalCalendarDay : ℤ) (tolerance : ℚ) : Bool :=
  decide (|getPhase m totalCalendarDay - 0| < tolerance) ||
    decide (|getPhase m totalCalendarDay - 1| < tolerance)

/-- `getIllumination`: `Math.round(50 * (1 + cos(2π * (phase - 0.5))))`. -/
noncomputable def getIllumination (m : Moon) (totalCalendarDay : ℤ) : ℤ :=
  round (50 * (1 + Real.cos (2 * Real.pi *
    (((getPhase m totalCalendarDay : ℚ) : ℝ) - 1 / 2))))

/-- The circular distance between two phase values on the wrapped
`[0, 1)` circle, used to state the tolerance-band claims. -/
def circDist (a b : ℚ) : ℚ := min |a - b| (1 - |a - b|)

/-! ### AthasianMoonSystem (scripts/moon-engine.js lines 229-347)

The moon configuration JSON is not in the sources; the constructor
defaults (and the spec's reference scenario, §8) give Ral period 33
with first new moon on day 17, and Guthay period 125 with first new
moon on day 63, both with offset 0. -/

/-- Ral with the constructor-default parameters. -/
def ralMoon : Moon := ⟨33, 17, 0⟩

/-- Guthay with the constructor-default parameters. -/
def guthayMoon : Moon := ⟨125, 63, 0⟩

/-- `calculateLCM`: `|a*b| / gcd(|a|, |b|)`. -/
def calculateLCM (a b : ℤ) : ℤ :=
  ((a * b).natAbs / Nat.gcd a.natAbs b.natAbs : ℕ)

/-! ### EclipseCalculator (eclipse-engine source lines 2740-3094) -/

/-- Eclipse classification, `EclipseType` of the source. -/
inductive EclipseType where
  | NONE
  | PARTIAL
  | TOTAL
  | GRAND
deriving DecidableEq

/-- Eclipse alignment, `EclipseAlignment` of the source. -/
inductive EclipseAlignment where
  | NONE
  | RAL_OCCLUDES_GUTHAY
  | GUTHAY_OCCLUDES_RAL
  | PERFECT_ALIGNMENT
deriving DecidableEq

/-- Detection tolerance `this.tolerances.grand = 0.005`. -/
def tolGrand : ℚ := 5 / 1000

/-- Detection tolerance `this.tolerances.total = 0.02`. -/
def tolTotal : ℚ := 2 / 100

/-- Detection tolerance `this.tolerances.partial = 0.05`. -/
def tolNear : ℚ := 5 / 100

/-- `determineAlignment`: phase difference within 0.01 of 0 (or of 1)
is perfect alignment; otherwise the moon with the smaller phase
occludes the other. -/
def determineAlignment (ralPhase guthayPhase : ℚ) : EclipseAlignment :=
  if |ralPhase - guthayPhase| < 1 / 100 ∨ 1 - 1 / 100 < |ralPhase - guthayPhase| then
    EclipseAlignment.PERFECT_ALIGNMENT
  else if ralPhase < guthayPhase then
    EclipseAlignment.RAL_OCCLUDES_GUTHAY
  else
    EclipseAlignment.GUTHAY_OCCLUDES_RAL

/-- `calculateMagnitude`:
`Math.round((ralIllum/100 * guthayIllum/100) * 1000) / 1000`. -/
def calculateMagnitude (ralIllumination guthayIllumination : ℤ) : ℚ :=
  (round ((ralIllumination : ℚ) / 100 * ((guthayIllumination : ℚ) / 100) * 1000) : ℚ) / 1000

/-- Rounding to three decimal places, as the specification writes
`round3`. -/
def round3 (x : ℚ) : ℚ := (round (x * 1000) : ℚ) / 1000

/-- Base duration hours per eclipse type (`baseDuration` table); the
source table has no entry for `NONE` (it is never looked up there),
modelled as 0. -/
def baseDuration : EclipseType → ℚ
  | EclipseType.GRAND => 8
  | EclipseType.TOTAL => 6
  | EclipseType.PARTIAL => 4
  | EclipseType.NONE => 0

/-- `calculateEclipseDuration`: base hours plus the sinusoidal
variation over the eclipse cycle, rounded to 0.1 h. -/
noncomputable def calculateEclipseDuration
    (eclipseCycle : ℤ) (absoluteDay : ℤ) (ty : EclipseType) : ℝ :=
  let cyclePosition : ℝ := ((Int.tmod absoluteDay eclipseCycle : ℤ) : ℝ) / (eclipseCycle : ℝ)
  let variation := Real.sin (2 * Real.pi * cyclePosition) * (1 / 2)
  (round (((baseDuration ty : ℝ) + variation) * 10) : ℝ) / 10

/-- The eclipse record of `getEclipseInfo`, without the derived
description string. -/
structure EclipseInfo where
  absoluteDay : ℤ
  type : EclipseType
  alignment : EclipseAlignment
  ralIllumination : ℤ
  guthayIllumination : ℤ
  ralPhase : ℚ
  guthayPhase : ℚ
  magnitude : ℚ
  duration : ℝ
  isVisible : Bool

/-- `getEclipseInfo` for a moon system of moons `A` (Ral) and `B`
(Guthay): the source initialises a no-eclipse record and overwrites
type, alignment, magnitude, duration and visibility in the grand /
total / partial branches.  The session cache is transparent (the
function is pure) and is not modelled. -/
noncomputable def getEclipseInfo (A B : Moon) (absoluteDay : ℤ) : EclipseInfo :=
  let ralPhase := getPhase A absoluteDay
  let guthayPhase := getPhase B absoluteDay
  let ralIllumination := getIllumination A absoluteDay
  let guthayIllumination := getIllumination B absoluteDay
  let eclipseCycle := calculateLCM A.period B.period
  if isFull A absoluteDay tolNear && isFull B absoluteDay tolNear then
    if isFull A absoluteDay tolGrand && isFull B absoluteDay tolGrand then
      ⟨absoluteDay, EclipseType.GRAND, EclipseAlignment.PERFECT_ALIGNMENT,
        ralIllumination, guthayIllumination, ralPhase, guthayPhase, 1,
        calculateEclipseDuration eclipseCycle absoluteDay EclipseType.GRAND, true⟩
    else if isFull A absoluteDay tolTotal && isFull B absoluteDay tolTotal then
      ⟨absoluteDay, EclipseType.TOTAL, determineAlignment ralPhase guthayPhase,
        ralIllumination, guthayIllumination, ralPhase, guthayPhase,
        calculateMagnitude ralIllumination guthayIllumination,
        calculateEclipseDuration eclipseCycle absoluteDay EclipseType.TOTAL, true⟩
    else
      ⟨absoluteDay, EclipseType.PARTIAL, determineAlignment ralPhase guthayPhase,
        ralIllumination, guthayIllumination, ralPhase, guthayPhase,
        calculateMagnitude ralIllumination guthayIllumination,
        calculateEclipseDuration eclipseCycle absoluteDay EclipseType.PARTIAL, true⟩
  else
    ⟨absoluteDay, EclipseType.NONE, EclipseAlignment.NONE,
      ralIllumination, guthayIllumination, ralPhase, guthayPhase, 0, 0, false⟩

/-- The type component of `getEclipseInfo` alone (same branch
structure), kept separate so the searches below stay executable. -/
def eclipseType (A B : Moon) (absoluteDay : ℤ) : EclipseType :=
  if isFull A absoluteDay tolNear && isFull B absoluteDay tolNear then
    if isFull A absoluteDay tolGrand && isFull B absoluteDay tolGrand then
      EclipseType.GRAND
    else if isFull A absoluteDay tolTotal && isFull B absoluteDay tolTotal then
      EclipseType.TOTAL
    else
      EclipseType.PARTIAL
  else
    EclipseType.NONE

/-- `typeOrder.indexOf` over `[PARTIAL, TOTAL, GRAND]`: `NONE` is
absent and indexes to `-1`. -/
def typeIndex : EclipseType → ℤ
  | EclipseType.NONE => -1
  | EclipseType.PARTIAL => 0
  | EclipseType.TOTAL => 1
  | EclipseType.GRAND => 2

/-- The total order `NONE < PARTIAL < TOTAL < GRAND` named by the
specification, as a rank. -/
def typeRank : EclipseType → ℕ
  | EclipseType.NONE => 0
  | EclipseType.PARTIAL => 1
  | EclipseType.TOTAL => 2
  | EclipseType.GRAND => 3

/-- The acceptance test of both searches: a detected eclipse
(`type ≠ NONE`) whose type index reaches the minimum type's index. -/
def sevOk (A B : Moon) (minType : EclipseType) (day : ℤ) : Bool :=
  decide (eclipseType A B day ≠ EclipseType.NONE) &&
    decide (typeIndex minType ≤ typeIndex (eclipseType A B day))

/-- Forward linear search: try `day`, `day+1`, … while fuel lasts. -/
def searchFwd (ok : ℤ → Bool) : ℕ → ℤ → Option ℤ
  | 0, _ => none
  | fuel + 1, day => if ok day then some day else searchFwd ok fuel (day + 1)

/-- Backward linear search clamped at `stop`: try `day`, `day-1`, …
while `day` has not fallen below `stop` and fuel lasts. -/
def searchBwd (ok : ℤ → Bool) (stop : ℤ) : ℕ → ℤ → Option ℤ
  | 0, _ => none
  | fuel + 1, day =>
      if day < stop then none
      else if ok day then some day
      else searchBwd ok stop fuel (day - 1)

/-- `findNextEclipse`: scan `fromDay+1 … fromDay + 2*eclipseCycle` and
return the first day passing `sevOk`, else `none`.  The source returns
the full `getEclipseInfo` record of that day; the day determines it. -/
def findNextEclipseDay (A B : Moon) (fromDay : ℤ) (minType : EclipseType) : Option ℤ :=
  searchFwd (sevOk A B minType) (2 * calculateLCM A.period B.period).toNat (fromDay + 1)

/-- `findPreviousEclipse`: scan backward from `fromDay-1` down to
`max 0 (fromDay - 2*eclipseCycle)` and return the first day passing
`sevOk`, else `none`.  Fuel one above the scan width so the clamp at
`stop`, not fuel exhaustion, ends the loop. -/
def findPreviousEclipseDay (A B : Moon) (fromDay : ℤ) (minType : EclipseType) : Option ℤ :=
  searchBwd (sevOk A B minType) (max 0 (fromDay - 2 * calculateLCM A.period B.period))
    ((2 * calculateLCM A.period B.period).toNat + 1) (fromDay - 1)

/-! ### Integer twin of the classification for the default system

`eclipseType` compares rational phases; the kernel cannot evaluate
rational arithmetic, so concrete search runs go through this integer
formulation, proved equal to `eclipseType ralMoon guthayMoon` below. -/

/-- Whether cycle day `c` of a period-`p` offset-0 moon lies in the
band `phase < tn/td ∨ phase > 1 - tn/td`, written with cleared
denominators. -/
def fullZ (p c tn td : ℤ) : Bool :=
  decide (c * td < tn * p) || decide ((td - tn) * p < c * td)

/-- Integer twin of `eclipseType ralMoon guthayMoon`. -/
def eclipseTypeZ (t : ℤ) : EclipseType :=
  let rc := getCycleDay ralMoon t
  let gc := getCycleDay guthayMoon t
  if (fullZ 33 rc 5 100 && fullZ 125 gc 5 100) = true then
    if (fullZ 33 rc 5 1000 && fullZ 125 gc 5 1000) = true then EclipseType.GRAND
    else if (fullZ 33 rc 2 100 && fullZ 125 gc 2 100) = true then EclipseType.TOTAL
    else EclipseType.PARTIAL
  else EclipseType.NONE

/-- Integer twin of `sevOk ralMoon guthayMoon`. -/
def sevOkZ (minType : EclipseType) (day : ℤ) : Bool :=
  decide (eclipseTypeZ day ≠ EclipseType.NONE) &&
    decide (typeIndex minType ≤ typeIndex (eclipseTypeZ day))

/-! ### DarkSunCalendar clock (scripts/moon-engine.js lines 405-604) -/

/-- Date components handed to `componentsToTime`: 1-based year,
0-based month index, 1-based day within the month, and time of day. -/
structure DateComponents where
  year : ℤ
  month : ℕ
  day : ℤ
  hour : ℤ
  minute : ℤ
  second : ℤ

/-- The calendar schema fields the clock reads: the ordered month
lengths, the time radix, and the configured `daysPerYear`. -/
structure CalendarConfig where
  monthLengths : List ℕ
  hoursPerDay : ℕ
  minutesPerHour : ℕ
  secondsPerMinute : ℕ
  daysPerYear : ℕ

/-- `secondsPerDay = hoursPerDay * minutesPerHour * secondsPerMinute`. -/
def secondsPerDay (cal : CalendarConfig) : ℤ :=
  (cal.hoursPerDay * cal.minutesPerHour * cal.secondsPerMinute : ℕ)

/-- The `dayOffset` each month carries: the `calendarDataReady` hook
assigns the running sum of the preceding month lengths. -/
def offsetOf : List ℕ → ℕ → ℕ
  | _, 0 => 0
  | [], _ + 1 => 0
  | len :: rest, k + 1 => len + offsetOf rest k

/-- The month loop of `timeToComponents`: walk the month table with its
cumulative offsets and return the first index whose half-open interval
`[dayOffset, dayOffset + days)` contains the day of year, together
with the 1-based day within that month. -/
def monthScan : ℤ → ℕ → List ℕ → ℤ → Option (ℕ × ℤ)
  | _, _, [], _ => none
  | off, i, len :: rest, doy =>
      if off ≤ doy ∧ doy < off + (len : ℤ) then some (i, doy - off + 1)
      else monthScan (off + len) (i + 1) rest doy

/-- The components `timeToComponents` returns; month and day are
`none` when the month loop finds no interval. -/
structure TimeComponents where
  year : ℤ
  month : Option ℕ
  day : Option ℤ
  hour : ℤ
  minute : ℤ
  second : ℤ

/-- The source's local `totalSeconds = Math.floor(worldTime / 1000)`;
the following locals of `timeToComponents` become named definitions. -/
def totalSecondsOf (worldTime : ℤ) : ℤ := Int.fdiv worldTime 1000

/-- `totalMinutes = Math.floor(totalSeconds / secondsPerMinute)`. -/
def totalMinutesOf (cal : CalendarConfig) (worldTime : ℤ) : ℤ :=
  Int.fdiv (totalSecondsOf worldTime) cal.secondsPerMinute

/-- `totalHours = Math.floor(totalMinutes / minutesPerHour)`. -/
def totalHoursOf (cal : CalendarConfig) (worldTime : ℤ) : ℤ :=
  Int.fdiv (totalMinutesOf cal worldTime) cal.minutesPerHour

/-- `totalDays = Math.floor(totalHours / hoursPerDay)`. -/
def totalDaysOf (cal : CalendarConfig) (worldTime : ℤ) : ℤ :=
  Int.fdiv (totalHoursOf cal worldTime) cal.hoursPerDay

/-- The 0-based day of year of `timeToComponents`:
`totalDays % daysPerYear`. -/
def dayOfYear0 (cal : CalendarConfig) (worldTime : ℤ) : ℤ :=
  Int.tmod (totalDaysOf cal worldTime) cal.daysPerYear

/-- `timeToComponents` (the engine version, 1-based year): radix
decomposition of the instant, then the month loop on the day of year;
month and day stay `null` when the loop matches no interval. -/
def timeToComponents (cal : CalendarConfig) (worldTime : ℤ) : TimeComponents :=
  match monthScan 0 0 cal.monthLengths (dayOfYear0 cal worldTime) with
  | some (i, d) =>
      ⟨Int.fdiv (totalDaysOf cal worldTime) cal.daysPerYear + 1, some i, some d,
        Int.tmod (totalHoursOf cal worldTime) cal.hoursPerDay,
        Int.tmod (totalMinutesOf cal worldTime) cal.minutesPerHour,
        Int.tmod (totalSecondsOf worldTime) cal.secondsPerMinute⟩
  | none =>
      ⟨Int.fdiv (totalDaysOf cal worldTime) cal.daysPerYear + 1, none, none,
        Int.tmod (totalHoursOf cal worldTime) cal.hoursPerDay,
        Int.tmod (totalMinutesOf cal worldTime) cal.minutesPerHour,
        Int.tmod (totalSecondsOf worldTime) cal.secondsPerMinute⟩

/-- `componentsToTime`: month lookup (an out-of-range index throws in
the source, `none` here), then day-of-year and total seconds, returned
in milliseconds. -/
def componentsToTime (cal : CalendarConfig) (c : DateComponents) : Option ℤ :=
  if c.month < cal.monthLengths.length then
    some ((((c.year - 1) * (cal.daysPerYear : ℤ) +
        ((offsetOf cal.monthLengths c.month : ℤ) + (c.day - 1))) * secondsPerDay cal +
      c.hour * ((cal.minutesPerHour : ℤ) * (cal.secondsPerMinute : ℤ)) +
      c.minute * (cal.secondsPerMinute : ℤ) + c.second) * 1000)
  else none

/-! ### Era mapper (scripts/moon-engine.js lines 381-403 and 563-592) -/

/-- `_safeMod`: `((n % m) + m) % m` with the JavaScript remainder. -/
def safeMod (n m : ℤ) : ℤ := Int.tmod (Int.tmod n m + m) m

/-- The anchor year of `_computeCycleOffsets`. -/
def anchorYear : ℤ := 14656

/-- The anchor King's Age. -/
def anchorKingsAge : ℤ := 190

/-- The anchor year within the King's Age. -/
def anchorYearInAge : ℤ := 27

/-- The anchor year name. -/
def anchorYearName : String := "Wind's Reverance"

/-- `CONFIG.time._dsrKAEpochOffset` as `_computeCycleOffsets` derives
it from the anchor at startup. -/
def kaEpochOffset : ℤ :=
  let r := safeMod ((anchorYearInAge - 1) - (anchorYear - 1)) 77
  let base := Int.fdiv (anchorYear - 1 + r) 77
  let t := anchorKingsAge - 1 - base
  r + 77 * t

/-- `CONFIG.time._dsrYearNameOffset`: the cyclic shift aligning the
era-name list with the anchor, 0 when the anchor name is absent. -/
def yearNameOffset (names : List String) : ℤ :=
  match names.findIdx? (fun n => n == anchorYearName) with
  | some i => safeMod ((i : ℤ) - (anchorYear - 1)) 77
  | none => 0

/-- `DarkSunCalendar.getKingsAge`. -/
def getKingsAge (year : ℤ) : ℤ :=
  Int.fdiv (year - 1 + kaEpochOffset) 77 + 1

/-- `DarkSunCalendar.getKingsAgeYear`. -/
def getKingsAgeYear (year : ℤ) : ℤ :=
  safeMod (year - 1 + kaEpochOffset) 77 + 1

/-- `DarkSunCalendar.getYearName`: index into the era-name cycle, or
`none` for an empty list. -/
def getYearName (names : List String) (year : ℤ) : Option String :=
  if names.length = 0 then none
  else names.get? (safeMod (year - 1 + yearNameOffset names) (names.length : ℤ)).toNat

/-! ### The Dark Sun schema used by concrete witnesses

Modelled from the spec: the calendar JSON (`darksun-calendar.json`) is
not among the sources; spec §8 fixes 12 months of 30 days with three
5-day intercalary blocks after months 4, 8 and 12 (`daysPerYear = 375`)
and the usual 24/60/60 time radix. -/

/-- Modelled from the spec: the Dark Sun month-length table. -/
def darkSunMonths : List ℕ :=
  [30, 30, 30, 30, 5, 30, 30, 30, 30, 5, 30, 30, 30, 30, 5]

/-- Modelled from the spec: the Dark Sun calendar schema. -/
def darkSunCal : CalendarConfig := ⟨darkSunMonths, 24, 60, 60, 375⟩

/-- The moon of the C5 counterexample: Ral's period and reference day
with a configured phase offset of one half. -/
def halfOffsetMoon : Moon := ⟨33, 17, 1 / 2⟩

/-! ## Lemmas about the moon phase calculator -/

/-- The JavaScript remainder of a positive modulus is greater than the
negated modulus. -/
lemma tmod_neg_lower (a : ℤ) {b : ℤ} (hb : 0 < b) : -b < Int.tmod a b := by
  rcases a with x | x
  · have h : 0 ≤ Int.tmod (Int.ofNat x) b :=
      Int.tmod_nonneg b (Int.ofNat_le.mpr (Nat.zero_le x))
    exact lt_of_lt_of_le (by omega) h
  · obtain ⟨y, rfl⟩ : ∃ y : ℕ, b = (y : ℤ) := ⟨b.toNat, (Int.toNat_of_nonneg hb.le).symm⟩
    have hy : 0 < y := by exact_mod_cast hb
    have hlt : (x + 1) % y < y := Nat.mod_lt _ hy
    have he : Int.tmod (Int.negSucc x) (y : ℤ) = -(((x + 1) % y : ℕ) : ℤ) := rfl
    rw [he]
    omega

/-- The cycle day of a valid-period moon lies in `[0, period)`. -/
lemma getCycleDay_bounds (m : Moon) (hp : 0 < m.period) (t : ℤ) :
    0 ≤ getCycleDay m t ∧ getCycleDay m t < m.period := by
  have h1 := Int.tmod_lt_of_pos (t - m.firstNewMoonDay) hp
  have h2 := tmod_neg_lower (t - m.firstNewMoonDay) hp
  simp only [getCycleDay]
  split <;> omega

/-- With offset 0 the two wrap adjustments of `getPhase` never fire:
the phase is the cycle day over the period. -/
lemma getPhase_offsetZero (m : Moon) (hp : 0 < m.period) (ho : m.offset = 0) (t : ℤ) :
    getPhase m t = (getCycleDay m t : ℚ) / (m.period : ℚ) := by
  obtain ⟨h0, h1⟩ := getCycleDay_bounds m hp t
  have hq : (0 : ℚ) < (m.period : ℚ) := by exact_mod_cast hp
  have hq0 : (0 : ℚ) ≤ (getCycleDay m t : ℚ) / (m.period : ℚ) :=
    div_nonneg (by exact_mod_cast h0) hq.le
  have hq1 : (getCycleDay m t : ℚ) / (m.period : ℚ) < 1 :=
    (div_lt_one hq).mpr (by exact_mod_cast h1)
  simp only [getPhase, ho, add_zero]
  rw [if_neg (not_le.mpr hq1), if_neg (not_lt.mpr hq0)]

/-- The phase of any moon at its own first-new-moon day equals its
configured offset. -/
lemma getPhase_firstNewMoonDay (m : Moon) (_hp : 0 < m.period)
    (h0 : 0 ≤ m.offset) (h1 : m.offset < 1) :
    getPhase m m.firstNewMoonDay = m.offset := by
  have hc : getCycleDay m m.firstNewMoonDay = 0 := by
    simp only [getCycleDay, sub_self, Int.zero_tmod]
    rw [if_neg (by omega)]
  simp only [getPhase, hc, Int.cast_zero, zero_div, zero_add]
  rw [if_neg (not_le.mpr h1), if_neg (not_lt.mpr h0)]

/-- `isFull` of an offset-0 moon against a rational tolerance
`tn / td`, rewritten with cleared denominators: the integer test
`fullZ`. -/
lemma isFull_eq_fullZ (m : Moon) (hp : 0 < m.period) (ho : m.offset = 0)
    (t : ℤ) (tn td : ℤ) (htd : 0 < td) :
    isFull m t ((tn : ℚ) / (td : ℚ)) = fullZ m.period (getCycleDay m t) tn td := by
  have hph := getPhase_offsetZero m hp ho t
  have hpq : (0 : ℚ) < (m.period : ℚ) := by exact_mod_cast hp
  have htdq : (0 : ℚ) < (td : ℚ) := by exact_mod_cast htd
  rw [Bool.eq_iff_iff]
  simp only [isFull, fullZ, Bool.or_eq_true, decide_eq_true_eq, hph]
  refine or_congr ?_ ?_
  · rw [div_lt_div_iff₀ hpq htdq]
    exact_mod_cast Iff.rfl
  · have hone : (1 : ℚ) - (tn : ℚ) / (td : ℚ) = ((td - tn : ℤ) : ℚ) / (td : ℚ) := by
      field_simp
    rw [hone, div_lt_div_iff₀ htdq hpq]
    exact_mod_cast Iff.rfl

/-- The classification of the default Ral/Guthay system agrees with
its integer twin. -/
lemma eclipseType_eq_twin (t : ℤ) :
    eclipseType ralMoon guthayMoon t = eclipseTypeZ t := by
  have hrp : (0 : ℤ) < ralMoon.period := by norm_num [ralMoon]
  have hgp : (0 : ℤ) < guthayMoon.period := by norm_num [guthayMoon]
  have hro : ralMoon.offset = 0 := rfl
  have hgo : guthayMoon.offset = 0 := rfl
  have hrN : isFull ralMoon t tolNear = fullZ 33 (getCycleDay ralMoon t) 5 100 := by
    have h := isFull_eq_fullZ ralMoon hrp hro t 5 100 (by norm_num)
    simpa [tolNear, ralMoon] using h
  have hgN : isFull guthayMoon t tolNear = fullZ 125 (getCycleDay guthayMoon t) 5 100 := by
    have h := isFull_eq_fullZ guthayMoon hgp hgo t 5 100 (by norm_num)
    simpa [tolNear, guthayMoon] using h
  have hrG : isFull ralMoon t tolGrand = fullZ 33 (getCycleDay ralMoon t) 5 1000 := by
    have h := isFull_eq_fullZ ralMoon hrp hro t 5 1000 (by norm_num)
    simpa [tolGrand, ralMoon] using h
  have hgG : isFull guthayMoon t tolGrand = fullZ 125 (getCycleDay guthayMoon t) 5 1000 := by
    have h := isFull_eq_fullZ guthayMoon hgp hgo t 5 1000 (by norm_num)
    simpa [tolGrand, guthayMoon] using h
  have hrT : isFull ralMoon t tolTotal = fullZ 33 (getCycleDay ralMoon t) 2 100 := by
    have h := isFull_eq_fullZ ralMoon hrp hro t 2 100 (by norm_num)
    simpa [tolTotal, ralMoon] using h
  have hgT : isFull guthayMoon t tolTotal = fullZ 125 (getCycleDay guthayMoon t) 2 100 := by
    have h := isFull_eq_fullZ guthayMoon hgp hgo t 2 100 (by norm_num)
    simpa [tolTotal, guthayMoon] using h
  simp only [eclipseType, eclipseTypeZ, hrN, hgN, hrG, hgG, hrT, hgT]

/-- The search predicate of the default system agrees with its
integer twin. -/
lemma sevOk_eq_twin (mt : EclipseType) (t : ℤ) :
    sevOk ralMoon guthayMoon mt t = sevOkZ mt t := by
  simp only [sevOk, sevOkZ, eclipseType_eq_twin]

/-- The forward eclipse search of the default system, in terms of the
integer twin predicate and the evaluated fuel `2 * 4125`. -/
lemma findNext_eq_twin (d : ℤ) (mt : EclipseType) :
    findNextEclipseDay ralMoon guthayMoon d mt = searchFwd (sevOkZ mt) 8250 (d + 1) := by
  unfold findNextEclipseDay
  rw [show sevOk ralMoon guthayMoon mt = sevOkZ mt from funext (sevOk_eq_twin mt),
    show (2 * calculateLCM ralMoon.period guthayMoon.period).toNat = 8250 from by decide]

/-- The backward eclipse search of the default system, in terms of the
integer twin predicate. -/
lemma findPrev_eq_twin (d : ℤ) (mt : EclipseType) :
    findPreviousEclipseDay ralMoon guthayMoon d mt =
      searchBwd (sevOkZ mt) (max 0 (d - 8250)) 8251 (d - 1) := by
  unfold findPreviousEclipseDay
  rw [show sevOk ralMoon guthayMoon mt = sevOkZ mt from funext (sevOk_eq_twin mt),
    show (2 * calculateLCM ralMoon.period guthayMoon.period).toNat = 8250 from by decide,
    show 2 * calculateLCM ralMoon.period guthayMoon.period = (8250 : ℤ) from by decide]

/-- The type field of `getEclipseInfo` is `eclipseType`. -/
lemma getEclipseInfo_type (A B : Moon) (t : ℤ) :
    (getEclipseInfo A B t).type = eclipseType A B t := by
  simp only [getEclipseInfo, eclipseType]
  split_ifs <;> rfl

/-- The Ral illumination field of `getEclipseInfo`. -/
lemma getEclipseInfo_ralIllumination (A B : Moon) (t : ℤ) :
    (getEclipseInfo A B t).ralIllumination = getIllumination A t := by
  simp only [getEclipseInfo]
  split_ifs <;> rfl

/-- The Guthay illumination field of `getEclipseInfo`. -/
lemma getEclipseInfo_guthayIllumination (A B : Moon) (t : ℤ) :
    (getEclipseInfo A B t).guthayIllumination = getIllumination B t := by
  simp only [getEclipseInfo]
  split_ifs <;> rfl

/-! ## Characterisations of the bounded linear searches -/

/-- `searchFwd` finds exactly the least accepted day of the scanned
window `[start, start + fuel)`. -/
lemma searchFwd_some_iff (ok : ℤ → Bool) (fuel : ℕ) (start n : ℤ) :
    searchFwd ok fuel start = some n ↔
      start ≤ n ∧ n < start + fuel ∧ ok n = true ∧
        ∀ m, start ≤ m → m < n → ok m = false := by
  induction fuel generalizing start with
  | zero =>
      simp only [searchFwd, Nat.cast_zero, add_zero]
      constructor
      · intro h
        exact absurd h (by simp)
      · rintro ⟨h1, h2, -, -⟩
        exact absurd h2 (by omega)
  | succ f ih =>
      simp only [searchFwd]
      split
      case isTrue h =>
        constructor
        · intro he
          have hn : start = n := by
            injection he
          subst hn
          exact ⟨le_refl _, by push_cast; omega, h, fun m hm1 hm2 => absurd hm1 (by omega)⟩
        · rintro ⟨h1, h2, h3, h4⟩
          rcases eq_or_lt_of_le h1 with rfl | hlt
          · rfl
          · have := h4 start (le_refl _) hlt
            rw [this] at h
            exact absurd h (by simp)
      case isFalse h =>
        rw [ih (start + 1)]
        constructor
        · rintro ⟨h1, h2, h3, h4⟩
          refine ⟨by omega, by push_cast at h2 ⊢; omega, h3, ?_⟩
          intro m hm1 hm2
          rcases eq_or_lt_of_le hm1 with rfl | hlt
          · exact Bool.not_eq_true _ ▸ (by simpa using h)
          · exact h4 m (by omega) hm2
        · rintro ⟨h1, h2, h3, h4⟩
          have hne : start ≠ n := by
            rintro rfl
            rw [h3] at h
            exact h rfl
          refine ⟨by omega, by push_cast at h2 ⊢; omega, h3, ?_⟩
          intro m hm1 hm2
          exact h4 m (by omega) hm2

/-- `searchFwd` exhausts exactly when no day of the scanned window is
accepted. -/
lemma searchFwd_none_iff (ok : ℤ → Bool) (fuel : ℕ) (start : ℤ) :
    searchFwd ok fuel start = none ↔
      ∀ m, start ≤ m → m < start + fuel → ok m = false := by
  induction fuel generalizing start with
  | zero =>
      simp only [searchFwd, Nat.cast_zero, add_zero, true_iff]
      exact fun m h1 h2 => absurd h2 (by omega)
  | succ f ih =>
      simp only [searchFwd]
      split
      case isTrue h =>
        constructor
        · intro he
          exact absurd he (by simp)
        · intro hall
          have := hall start (le_refl _) (by push_cast; omega)
          rw [this] at h
          exact absurd h (by simp)
      case isFalse h =>
        rw [ih (start + 1)]
        constructor
        · intro hall m hm1 hm2
          rcases eq_or_lt_of_le hm1 with rfl | hlt
          · simpa using h
          · exact hall m (by omega) (by push_cast at hm2 ⊢; omega)
        · intro hall m hm1 hm2
          exact hall m (by omega) (by push_cast at hm2 ⊢; omega)

/-- `searchBwd` finds exactly the greatest accepted day of the scanned
window `[stop, day]`, provided it stands within fuel reach. -/
lemma searchBwd_some_iff (ok : ℤ → Bool) (stop : ℤ) (fuel : ℕ) (day p : ℤ) :
    searchBwd ok stop fuel day = some p ↔
      stop ≤ p ∧ p ≤ day ∧ day - p < fuel ∧ ok p = true ∧
        ∀ m, p < m → m ≤ day → ok m = false := by
  induction fuel generalizing day with
  | zero =>
      simp only [searchBwd, Nat.cast_zero]
      constructor
      · intro h
        exact absurd h (by simp)
      · rintro ⟨-, h2, h3, -, -⟩
        exact absurd h3 (by omega)
  | succ f ih =>
      simp only [searchBwd]
      split
      case isTrue h =>
        constructor
        · intro he
          exact absurd he (by simp)
        · rintro ⟨h1, h2, -, -, -⟩
          exact absurd h (by omega)
      case isFalse h =>
        split
        case isTrue hok =>
          constructor
          · intro he
            have hd : day = p := by
              injection he
            subst hd
            exact ⟨by omega, le_refl _, by push_cast; omega, hok,
              fun m hm1 hm2 => absurd hm1 (by omega)⟩
          · rintro ⟨h1, h2, h3, h4, h5⟩
            rcases eq_or_lt_of_le h2 with rfl | hlt
            · rfl
            · have := h5 day hlt (le_refl _)
              rw [this] at hok
              exact absurd hok (by simp)
        case isFalse hok =>
          rw [ih (day - 1)]
          constructor
          · rintro ⟨h1, h2, h3, h4, h5⟩
            refine ⟨h1, by omega, by push_cast at h3 ⊢; omega, h4, ?_⟩
            intro m hm1 hm2
            rcases eq_or_lt_of_le hm2 with rfl | hlt
            · simpa using hok
            · exact h5 m hm1 (by omega)
          · rintro ⟨h1, h2, h3, h4, h5⟩
            have hne : p ≠ day := by
              rintro rfl
              rw [h4] at hok
              exact hok rfl
            refine ⟨h1, by omega, by push_cast at h3 ⊢; omega, h4, ?_⟩
            intro m hm1 hm2
            exact h5 m hm1 (by omega)

/-- With fuel covering the window, `searchBwd` exhausts exactly when
no day of `[stop, day]` is accepted. -/
lemma searchBwd_none_iff (ok : ℤ → Bool) (stop : ℤ) (fuel : ℕ) (day : ℤ)
    (hfuel : day - stop < fuel) :
    searchBwd ok stop fuel day = none ↔
      ∀ m, stop ≤ m → m ≤ day → ok m = false := by
  induction fuel generalizing day with
  | zero =>
      simp only [searchBwd, true_iff]
      push_cast at hfuel
      exact fun m h1 h2 => absurd hfuel (by omega)
  | succ f ih =>
      simp only [searchBwd]
      split
      case isTrue h =>
        simp only [true_iff]
        exact fun m h1 h2 => absurd h (by omega)
      case isFalse h =>
        split
        case isTrue hok =>
          constructor
          · intro he
            exact absurd he (by simp)
          · intro hall
            have := hall day (by omega) (le_refl _)
            rw [this] at hok
            exact absurd hok (by simp)
        case isFalse hok =>
          rw [ih (day - 1) (by push_cast at hfuel ⊢; omega)]
          constructor
          · intro hall m hm1 hm2
            rcases eq_or_lt_of_le hm2 with rfl | hlt
            · simpa using hok
            · exact hall m hm1 (by omega)
          · intro hall m hm1 hm2
            exact hall m hm1 (by omega)

/-! ## Lemmas about the calendar clock -/

/-- A month's offset plus its length is bounded by the total of the
month lengths. -/
lemma offsetOf_add_get_le (L : List ℕ) (k : ℕ) (hk : k < L.length) :
    offsetOf L k + L.get ⟨k, hk⟩ ≤ L.sum := by
  induction L generalizing k with
  | nil => exact absurd hk (by simp)
  | cons len rest ih =>
      cases k with
      | zero => simp [offsetOf]
      | succ k =>
          have hk' : k < rest.length := by simpa using hk
          have := ih k hk'
          simp only [offsetOf, List.get_cons_succ, List.sum_cons]
          omega

/-- Completeness of the month loop: a day of year inside month `k`'s
half-open interval makes the scan stop exactly there. -/
lemma monthScan_of_interval (L : List ℕ) (k : ℕ) (hk : k < L.length)
    (off : ℤ) (i : ℕ) (doy : ℤ)
    (h1 : off + (offsetOf L k : ℤ) ≤ doy)
    (h2 : doy < off + (offsetOf L k : ℤ) + (L.get ⟨k, hk⟩ : ℤ)) :
    monthScan off i L doy = some (i + k, doy - (off + (offsetOf L k : ℤ)) + 1) := by
  induction k generalizing L off i with
  | zero =>
      cases L with
      | nil => exact absurd hk (by simp)
      | cons len rest =>
          have h0 : (offsetOf (len :: rest) 0 : ℤ) = 0 := by simp [offsetOf]
          have hg : ((len :: rest).get ⟨0, hk⟩ : ℤ) = (len : ℤ) := rfl
          rw [h0, add_zero] at h1
          rw [h0, add_zero, hg] at h2
          simp only [monthScan]
          rw [if_pos ⟨h1, h2⟩, h0]
          norm_num
  | succ k ih =>
      cases L with
      | nil => exact absurd hk (by simp)
      | cons len rest =>
          have hk' : k < rest.length := by simpa using hk
          have hoff : (offsetOf (len :: rest) (k + 1) : ℤ) = (len : ℤ) + (offsetOf rest k : ℤ) := by
            simp [offsetOf]
          have hget : ((len :: rest).get ⟨k + 1, hk⟩ : ℤ) = (rest.get ⟨k, hk'⟩ : ℤ) := rfl
          simp only [monthScan]
          rw [if_neg (by rw [hoff] at h1; omega)]
          have h1' : (off + (len : ℤ)) + (offsetOf rest k : ℤ) ≤ doy := by
            rw [hoff] at h1; omega
          have h2' : doy < (off + (len : ℤ)) + (offsetOf rest k : ℤ) + (rest.get ⟨k, hk'⟩ : ℤ) := by
            rw [hoff, hget] at h2
            omega
          rw [ih rest hk' (off + (len : ℤ)) (i + 1) h1' h2']
          have e1 : i + 1 + k = i + (k + 1) := by omega
          have e2 : off + (len : ℤ) + (offsetOf rest k : ℤ) = off + (offsetOf (len :: rest) (k + 1) : ℤ) := by
            rw [hoff]; ring
          rw [e1, e2]

/-- Soundness of the month loop: whatever the scan returns names a
month whose half-open interval holds the day of year, with the
1-based day within it. -/
lemma monthScan_some (L : List ℕ) (off : ℤ) (i : ℕ) (doy : ℤ) (j : ℕ) (d : ℤ)
    (h : monthScan off i L doy = some (j, d)) :
    ∃ k, ∃ hk : k < L.length, j = i + k ∧
      off + (offsetOf L k : ℤ) ≤ doy ∧
      doy < off + (offsetOf L k : ℤ) + (L.get ⟨k, hk⟩ : ℤ) ∧
      d = doy - (off + (offsetOf L k : ℤ)) + 1 := by
  induction L generalizing off i with
  | nil => exact absurd h (by simp [monthScan])
  | cons len rest ih =>
      simp only [monthScan] at h
      split_ifs at h with hcond
      · injection h with h'
        injection h' with hj hd
        refine ⟨0, by simp, hj.symm ▸ (by omega), ?_, ?_, ?_⟩
        · simpa [offsetOf] using hcond.1
        · simpa [offsetOf, List.get] using hcond.2
        · simp only [offsetOf, Nat.cast_zero, add_zero]
          omega
      · obtain ⟨k, hk, hj, hlo, hhi, hd⟩ := ih (off + (len : ℤ)) (i + 1) h
        have hoff : (offsetOf (len :: rest) (k + 1) : ℤ) = (len : ℤ) + (offsetOf rest k : ℤ) := by
          simp only [offsetOf]
          push_cast
          ring
        refine ⟨k + 1, by simpa using Nat.succ_lt_succ hk, by omega, ?_, ?_, ?_⟩
        · rw [hoff]; omega
        · rw [hoff]
          have : ((len :: rest).get ⟨k + 1, by simpa using Nat.succ_lt_succ hk⟩ : ℤ) =
              (rest.get ⟨k, hk⟩ : ℤ) := rfl
          rw [this]
          omega
        · rw [hoff]; omega

/-- One step of the mixed-radix extraction: with `0 ≤ a < b` the
JavaScript remainder and floor quotient of `a + b * n` by `b` are `a`
and `n`. -/
lemma extract_step (a b n : ℤ) (hb : 0 < b) (ha0 : 0 ≤ a) (ha1 : a < b) (hn : 0 ≤ n) :
    Int.tmod (a + b * n) b = a ∧ Int.fdiv (a + b * n) b = n := by
  have habn : 0 ≤ a + b * n := by nlinarith
  constructor
  · rw [Int.tmod_eq_emod habn hb.le, Int.add_mul_emod_self_left, Int.emod_eq_of_lt ha0 ha1]
  · rw [Int.fdiv_eq_ediv _ hb.le, Int.add_mul_ediv_left _ _ hb.ne',
      Int.ediv_eq_zero_of_lt ha0 ha1, zero_add]

/-- The month field of `timeToComponents` is the index component of
the month loop's result. -/
lemma timeToComponents_month (cal : CalendarConfig) (worldTime : ℤ) :
    (timeToComponents cal worldTime).month =
      (monthScan 0 0 cal.monthLengths (dayOfYear0 cal worldTime)).map Prod.fst := by
  unfold timeToComponents
  rcases monthScan 0 0 cal.monthLengths (dayOfYear0 cal worldTime) with _ | ⟨i, d⟩ <;> rfl

/-! ## Lemmas about the era mapper -/

/-- `_safeMod` with a positive modulus is the Euclidean remainder. -/
lemma safeMod_eq_emod (n : ℤ) {m : ℤ} (hm : 0 < m) : safeMod n m = n % m := by
  unfold safeMod
  have h1 := Int.tmod_lt_of_pos n hm
  have h2 := tmod_neg_lower n hm
  have hx : 0 ≤ Int.tmod n m + m := by omega
  rw [Int.tmod_eq_emod hx hm.le]
  have h3 : (Int.tmod n m) % m = n % m := by
    rw [Int.tmod_def]
    have he : n - m * n.tdiv m = n + m * (-(n.tdiv m)) := by ring
    rw [he, Int.add_mul_emod_self_left]
  calc (Int.tmod n m + m) % m = (Int.tmod n m + m * 1) % m := by ring_nf
    _ = (Int.tmod n m) % m := Int.add_mul_emod_self_left _ _ _
    _ = n % m := h3

/-! ## Lemmas about the illumination model -/

/-- `round` is monotone. -/
lemma round_le_round_h {x y : ℝ} (h : x ≤ y) : round x ≤ round y := by
  rw [round_eq, round_eq]
  exact Int.floor_le_floor (by linarith)

/-- Illumination at phase 0: the cosine argument is `-π`, the
illumination 0. -/
lemma getIllumination_of_phase_zero (m : Moon) (t : ℤ) (h : getPhase m t = 0) :
    getIllumination m t = 0 := by
  unfold getIllumination
  rw [h]
  have hθ : 2 * Real.pi * (((0 : ℚ) : ℝ) - 1 / 2) = -Real.pi := by
    push_cast
    ring
  rw [hθ, Real.cos_neg, Real.cos_pi]
  rw [show (50 * (1 + (-1 : ℝ))) = 0 by norm_num]
  exact round_zero

/-- Illumination at phase 1/2: the cosine argument is 0, the
illumination 100. -/
lemma getIllumination_of_phase_half (m : Moon) (t : ℤ) (h : getPhase m t = 1 / 2) :
    getIllumination m t = 100 := by
  unfold getIllumination
  rw [h]
  have hθ : 2 * Real.pi * ((((1 : ℚ) / 2 : ℚ) : ℝ) - 1 / 2) = 0 := by
    push_cast
    ring
  rw [hθ, Real.cos_zero]
  rw [show (50 * (1 + (1 : ℝ))) = ((100 : ℤ) : ℝ) by norm_num]
  exact round_intCast 100

/-! ## Lemmas about the eclipse record and searches -/

/-- `calculateMagnitude` is `round3` of the product of the
illumination fractions. -/
lemma calculateMagnitude_eq_round3 (a b : ℤ) :
    calculateMagnitude a b = round3 ((a : ℚ) / 100 * ((b : ℚ) / 100)) := rfl

/-- On a day the source classifies GRAND the record's magnitude is the
hardcoded 1. -/
lemma getEclipseInfo_magnitude_of_grand (A B : Moon) (t : ℤ)
    (h : eclipseType A B t = EclipseType.GRAND) :
    (getEclipseInfo A B t).magnitude = 1 := by
  simp only [eclipseType] at h
  simp only [getEclipseInfo]
  split_ifs at h ⊢
  rfl

/-- The code's acceptance test agrees with "classified type at least
`minType` in the order `NONE < PARTIAL < TOTAL < GRAND`" whenever
`minType` is not `NONE`. -/
lemma sevOk_iff_rank (A B : Moon) (mt : EclipseType) (hmt : mt ≠ EclipseType.NONE) (m : ℤ) :
    sevOk A B mt m = true ↔ typeRank mt ≤ typeRank (eclipseType A B m) := by
  unfold sevOk
  rw [Bool.and_eq_true, decide_eq_true_eq, decide_eq_true_eq]
  generalize eclipseType A B m = e
  rcases mt with _ | _ | _ | _
  · exact absurd rfl hmt
  · cases e <;> decide
  · cases e <;> decide
  · cases e <;> decide

/-! ## Claim theorems -/

/-- Claim C1, evidence of the code bug: at Ral's first-new-moon day 17
the phase is 0 — a new moon, at wrapped circle distance 1/2 from the
full phase 0.5 — yet `isFull` accepts the day for tolerance 0.02
exactly as `isNew` does, contradicting the file's own convention
"0.0 = New, 0.5 = Full" and the doc comment "True if moon is full". -/
theorem isFull_misclassifies_new_moon :
    getPhase ralMoon 17 = 0 ∧
    circDist (getPhase ralMoon 17) (1 / 2) = 1 / 2 ∧
    isFull ralMoon 17 (2 / 100) = true ∧
    isNew ralMoon 17 (2 / 100) = true := by
  have hph : getPhase ralMoon 17 = 0 := by
    have h := getPhase_firstNewMoonDay ralMoon (by norm_num [ralMoon])
      (by norm_num [ralMoon]) (by norm_num [ralMoon])
    simpa [ralMoon] using h
  refine ⟨hph, ?_, ?_, ?_⟩
  · rw [hph]
    unfold circDist
    rw [show (0 : ℚ) - 1 / 2 = -(1 / 2) by ring, abs_neg,
      abs_of_nonneg (by norm_num : (0 : ℚ) ≤ 1 / 2)]
    norm_num
  · simp only [isFull, hph, Bool.or_eq_true, decide_eq_true_eq]
    exact Or.inl (by norm_num)
  · simp only [isNew, hph, Bool.or_eq_true, decide_eq_true_eq]
    exact Or.inl (by norm_num)

/-- Claim C3: with a 77-name era list containing the anchor name, the
startup offsets reproduce the whole anchor fact: King's Age 190, year
27 of the age, and the name "Wind's Reverance" for year 14656. -/
theorem anchor_consistency (names : List String) (i : ℕ)
    (hlen : names.length = 77)
    (hidx : names.findIdx? (fun n => n == anchorYearName) = some i) :
    getKingsAge anchorYear = anchorKingsAge ∧
    getKingsAgeYear anchorYear = anchorYearInAge ∧
    getYearName names anchorYear = some anchorYearName := by
  obtain ⟨hi, hp, -⟩ := List.findIdx?_eq_some_iff_getElem.mp hidx
  have hname : names[i] = anchorYearName := by
    exact eq_of_beq (by simpa using hp)
  refine ⟨by decide, by decide, ?_⟩
  unfold getYearName
  rw [if_neg (by simp [hlen])]
  unfold yearNameOffset
  rw [hidx]
  rw [show ((names.length : ℕ) : ℤ) = 77 from by exact_mod_cast hlen]
  have hi77 : (i : ℤ) < 77 := by
    have : i < 77 := hlen ▸ hi
    exact_mod_cast this
  have hi0 : (0 : ℤ) ≤ (i : ℤ) := Int.ofNat_le.mpr (Nat.zero_le i)
  have hidx_eq :
      safeMod (anchorYear - 1 + safeMod ((i : ℤ) - (anchorYear - 1)) 77) 77 = (i : ℤ) := by
    rw [safeMod_eq_emod _ (by norm_num), safeMod_eq_emod _ (by norm_num)]
    unfold anchorYear
    omega
  rw [hidx_eq, Int.toNat_ofNat]
  rw [List.get?_eq_getElem?, List.getElem?_eq_getElem hi, hname]

/-- Claim C3 witness: a concrete 77-name list with the anchor name in
front. -/
theorem anchor_consistency_witness :
    getKingsAge anchorYear = anchorKingsAge ∧
    getKingsAgeYear anchorYear = anchorYearInAge ∧
    getYearName (anchorYearName :: List.replicate 76 "Unnamed") anchorYear =
      some anchorYearName :=
  anchor_consistency (anchorYearName :: List.replicate 76 "Unnamed") 0
    (by simp) (by simp [List.findIdx?_cons])

/-- Claim C5 counterexample: a validly configured moon with phase
offset 1/2 has phase 1/2 and illumination 100 at its own reference
new-moon day, not 0 and 0. -/
theorem reference_phase_counterexample :
    Moon.Valid halfOffsetMoon ∧
    getPhase halfOffsetMoon halfOffsetMoon.firstNewMoonDay = 1 / 2 ∧
    getPhase halfOffsetMoon halfOffsetMoon.firstNewMoonDay ≠ 0 ∧
    getIllumination halfOffsetMoon halfOffsetMoon.firstNewMoonDay = 100 := by
  have hv : Moon.Valid halfOffsetMoon :=
    ⟨by norm_num [halfOffsetMoon], by norm_num [halfOffsetMoon], by norm_num [halfOffsetMoon]⟩
  have hph : getPhase halfOffsetMoon halfOffsetMoon.firstNewMoonDay = 1 / 2 := by
    have h := getPhase_firstNewMoonDay halfOffsetMoon (by norm_num [halfOffsetMoon]) hv.2.1 hv.2.2
    simpa [halfOffsetMoon] using h
  exact ⟨hv, hph, by rw [hph]; norm_num, getIllumination_of_phase_half _ _ hph⟩

/-- Claim C5 amended: the phase at a moon's reference new-moon day
equals its configured phase offset; phase 0 and illumination 0 hold
exactly when the offset is 0 (the default configuration). -/
theorem reference_phase_amended (m : Moon) (hv : Moon.Valid m) :
    getPhase m m.firstNewMoonDay = m.offset ∧
    (m.offset = 0 →
      getPhase m m.firstNewMoonDay = 0 ∧ getIllumination m m.firstNewMoonDay = 0) := by
  obtain ⟨hp, h0, h1⟩ := hv
  have hph := getPhase_firstNewMoonDay m hp h0 h1
  exact ⟨hph, fun ho =>
    ⟨hph.trans ho, getIllumination_of_phase_zero _ _ (hph.trans ho)⟩⟩

/-- Claim C5 witness: the default Ral configuration. -/
theorem reference_phase_witness :
    getPhase ralMoon ralMoon.firstNewMoonDay = ralMoon.offset ∧
    (ralMoon.offset = 0 →
      getPhase ralMoon ralMoon.firstNewMoonDay = 0 ∧
      getIllumination ralMoon ralMoon.firstNewMoonDay = 0) :=
  reference_phase_amended ralMoon
    ⟨by norm_num [ralMoon], by norm_num [ralMoon], by norm_num [ralMoon]⟩

/-- Claim C9: the illumination is exactly
`round (50 * (1 + cos (2π * (phase - 0.5))))`, and it always lies in
the integer range `[0, 100]`. -/
theorem illumination_formula_and_bounds (m : Moon) (t : ℤ) :
    getIllumination m t =
      round (50 * (1 + Real.cos (2 * Real.pi * (((getPhase m t : ℚ) : ℝ) - 1 / 2)))) ∧
    0 ≤ getIllumination m t ∧ getIllumination m t ≤ 100 := by
  refine ⟨rfl, ?_, ?_⟩
  · unfold getIllumination
    have h1 := Real.neg_one_le_cos (2 * Real.pi * (((getPhase m t : ℚ) : ℝ) - 1 / 2))
    have h2 : round (0 : ℝ) ≤
        round (50 * (1 + Real.cos (2 * Real.pi * (((getPhase m t : ℚ) : ℝ) - 1 / 2)))) :=
      round_le_round_h (by nlinarith)
    simpa using h2
  · unfold getIllumination
    have h1 := Real.cos_le_one (2 * Real.pi * (((getPhase m t : ℚ) : ℝ) - 1 / 2))
    have h2 : round (50 * (1 + Real.cos (2 * Real.pi * (((getPhase m t : ℚ) : ℝ) - 1 / 2)))) ≤
        round (((100 : ℤ) : ℝ)) :=
      round_le_round_h (by push_cast; nlinarith)
    simpa using h2

/-- Claim C4 amended: on PARTIAL and TOTAL days the record's magnitude
is `round3` of the product of the two illumination fractions; on GRAND
days the source hardcodes magnitude 1 instead. -/
theorem magnitude_product_amended (A B : Moon) (t : ℤ)
    (h : (getEclipseInfo A B t).type = EclipseType.PARTIAL ∨
      (getEclipseInfo A B t).type = EclipseType.TOTAL) :
    (getEclipseInfo A B t).magnitude =
      round3 (((getEclipseInfo A B t).ralIllumination : ℚ) / 100 *
        (((getEclipseInfo A B t).guthayIllumination : ℚ) / 100)) := by
  simp only [getEclipseInfo] at h ⊢
  split_ifs at h ⊢
  · rcases h with h | h <;> exact h.elim
  · exact calculateMagnitude_eq_round3 _ _
  · exact calculateMagnitude_eq_round3 _ _
  · rcases h with h | h <;> exact h.elim

/-- Claim C4 witness: day 3813 is a PARTIAL day of the default system
and its magnitude is the round3 product. -/
theorem magnitude_product_witness :
    (getEclipseInfo ralMoon guthayMoon 3813).type = EclipseType.PARTIAL ∧
    (getEclipseInfo ralMoon guthayMoon 3813).magnitude =
      round3 (((getEclipseInfo ralMoon guthayMoon 3813).ralIllumination : ℚ) / 100 *
        (((getEclipseInfo ralMoon guthayMoon 3813).guthayIllumination : ℚ) / 100)) := by
  have hty : (getEclipseInfo ralMoon guthayMoon 3813).type = EclipseType.PARTIAL := by
    rw [getEclipseInfo_type, eclipseType_eq_twin]
    decide
  exact ⟨hty, magnitude_product_amended ralMoon guthayMoon 3813 (Or.inl hty)⟩

/-- Claim C4 counterexample: day 2063 of the default system is GRAND;
both illuminations are 0, so the round3 product is 0, but the record's
magnitude is the hardcoded 1. -/
theorem grand_magnitude_counterexample :
    (getEclipseInfo ralMoon guthayMoon 2063).type = EclipseType.GRAND ∧
    (getEclipseInfo ralMoon guthayMoon 2063).ralIllumination = 0 ∧
    (getEclipseInfo ralMoon guthayMoon 2063).guthayIllumination = 0 ∧
    (getEclipseInfo ralMoon guthayMoon 2063).magnitude = 1 ∧
    (getEclipseInfo ralMoon guthayMoon 2063).magnitude ≠
      round3 (((getEclipseInfo ralMoon guthayMoon 2063).ralIllumination : ℚ) / 100 *
        (((getEclipseInfo ralMoon guthayMoon 2063).guthayIllumination : ℚ) / 100)) := by
  have hrph : getPhase ralMoon 2063 = 0 := by
    rw [getPhase_offsetZero ralMoon (by norm_num [ralMoon]) rfl]
    rw [show getCycleDay ralMoon 2063 = 0 from by decide]
    norm_num
  have hgph : getPhase guthayMoon 2063 = 0 := by
    rw [getPhase_offsetZero guthayMoon (by norm_num [guthayMoon]) rfl]
    rw [show getCycleDay guthayMoon 2063 = 0 from by decide]
    norm_num
  have hri : getIllumination ralMoon 2063 = 0 := getIllumination_of_phase_zero _ _ hrph
  have hgi : getIllumination guthayMoon 2063 = 0 := getIllumination_of_phase_zero _ _ hgph
  have htwin : eclipseType ralMoon guthayMoon 2063 = EclipseType.GRAND := by
    rw [eclipseType_eq_twin]
    decide
  have hty : (getEclipseInfo ralMoon guthayMoon 2063).type = EclipseType.GRAND := by
    rw [getEclipseInfo_type]
    exact htwin
  have hmag := getEclipseInfo_magnitude_of_grand ralMoon guthayMoon 2063 htwin
  refine ⟨hty, by rw [getEclipseInfo_ralIllumination]; exact hri,
    by rw [getEclipseInfo_guthayIllumination]; exact hgi, hmag, ?_⟩
  rw [hmag, getEclipseInfo_ralIllumination, getEclipseInfo_guthayIllumination, hri, hgi]
  norm_num [round3]

/-- Claim C10: a record classified NONE keeps the initial no-eclipse
fields: alignment NONE, magnitude 0, duration 0, not visible. -/
theorem none_record_clean (A B : Moon) (t : ℤ)
    (h : (getEclipseInfo A B t).type = EclipseType.NONE) :
    (getEclipseInfo A B t).alignment = EclipseAlignment.NONE ∧
    (getEclipseInfo A B t).magnitude = 0 ∧
    (getEclipseInfo A B t).duration = 0 ∧
    (getEclipseInfo A B t).isVisible = false := by
  simp only [getEclipseInfo] at h ⊢
  split_ifs at h ⊢
  exact ⟨rfl, rfl, rfl, rfl⟩

/-- Claim C10 witness: day 0 of the default system is a NONE day. -/
theorem none_record_clean_witness :
    (getEclipseInfo ralMoon guthayMoon 0).alignment = EclipseAlignment.NONE ∧
    (getEclipseInfo ralMoon guthayMoon 0).magnitude = 0 ∧
    (getEclipseInfo ralMoon guthayMoon 0).duration = 0 ∧
    (getEclipseInfo ralMoon guthayMoon 0).isVisible = false :=
  none_record_clean ralMoon guthayMoon 0
    (by rw [getEclipseInfo_type, eclipseType_eq_twin]; decide)

set_option maxRecDepth 8000 in
/-- Claim C7 counterexample: from day 0 the next PARTIAL-or-better
eclipse of the default system is day 182, but the backward search from
day 182 is clamped at day 0 and exhausts without finding anything: it
returns `none`, not a day `p ≤ 0`. -/
theorem search_adjacency_counterexample :
    findNextEclipseDay ralMoon guthayMoon 0 EclipseType.PARTIAL = some 182 ∧
    findPreviousEclipseDay ralMoon guthayMoon 182 EclipseType.PARTIAL = none := by
  constructor
  · rw [findNext_eq_twin]
    decide
  · rw [findPrev_eq_twin]
    decide

/-- Claim C7 amended: when the forward search from `d` returns day
`n`, then `d < n`, and whenever the backward search from `n` returns a
day `p` at all, `p ≤ d`. -/
theorem search_adjacency_amended (A B : Moon) (d n : ℤ)
    (h : findNextEclipseDay A B d EclipseType.PARTIAL = some n) :
    d < n ∧ ∀ p, findPreviousEclipseDay A B n EclipseType.PARTIAL = some p → p ≤ d := by
  unfold findNextEclipseDay at h
  rw [searchFwd_some_iff] at h
  obtain ⟨h1, h2, h3, h4⟩ := h
  refine ⟨by omega, ?_⟩
  intro p hp
  unfold findPreviousEclipseDay at hp
  rw [searchBwd_some_iff] at hp
  obtain ⟨hp1, hp2, hp3, hp4, hp5⟩ := hp
  by_contra hcon
  push_neg at hcon
  have hfalse : sevOk A B EclipseType.PARTIAL p = false := h4 p (by omega) (by omega)
  rw [hp4] at hfalse
  exact absurd hfalse (by decide)

/-- Claim C7 witness: from day 182 the next eclipse is day 183, and if
the backward search from 183 returns day 182 it satisfies the bound. -/
theorem search_adjacency_witness :
    (182 : ℤ) < 183 ∧
    (findPreviousEclipseDay ralMoon guthayMoon 183 EclipseType.PARTIAL = some 182 →
      (182 : ℤ) ≤ 182) := by
  have h := search_adjacency_amended ralMoon guthayMoon 182 183
    (by rw [findNext_eq_twin]; decide)
  exact ⟨h.1, fun hp => h.2 182 hp⟩

set_option maxRecDepth 8000 in
/-- Claim C8 counterexample: with `minType = NONE` every day satisfies
"classified type ≥ minType" under the claimed total order, so the
smallest qualifying day after 0 would be day 1; the code nevertheless
skips NONE-classified days and returns day 182. -/
theorem findNext_minType_none_counterexample :
    findNextEclipseDay ralMoon guthayMoon 0 EclipseType.NONE = some 182 ∧
    0 < (1 : ℤ) ∧ (1 : ℤ) ≤ 0 + 2 * calculateLCM ralMoon.period guthayMoon.period ∧
    typeRank EclipseType.NONE ≤ typeRank (eclipseType ralMoon guthayMoon 1) ∧
    (182 : ℤ) ≠ 1 := by
  refine ⟨by rw [findNext_eq_twin]; decide, by norm_num, by decide, Nat.zero_le _, by norm_num⟩

/-- Claim C8 amended: for `minType` of severity at least PARTIAL, the
forward search returns exactly the least day of
`(fromDay, fromDay + 2*eclipseCycle]` whose classified type reaches
`minType`, and `none` exactly when there is no such day; the backward
search does the same on `[max 0 (fromDay - 2*eclipseCycle), fromDay)`,
greatest day first — the scan is additionally clamped at day 0. -/
theorem eclipse_search_amended (A B : Moon) (d : ℤ) (mt : EclipseType)
    (hmt : mt ≠ EclipseType.NONE) :
    (∀ n, findNextEclipseDay A B d mt = some n ↔
        d < n ∧ n ≤ d + 2 * calculateLCM A.period B.period ∧
        typeRank mt ≤ typeRank (eclipseType A B n) ∧
        ∀ m, d < m → m < n → ¬ typeRank mt ≤ typeRank (eclipseType A B m)) ∧
    (findNextEclipseDay A B d mt = none ↔
        ∀ m, d < m → m ≤ d + 2 * calculateLCM A.period B.period →
          ¬ typeRank mt ≤ typeRank (eclipseType A B m)) ∧
    (∀ p, findPreviousEclipseDay A B d mt = some p ↔
        max 0 (d - 2 * calculateLCM A.period B.period) ≤ p ∧ p < d ∧
        typeRank mt ≤ typeRank (eclipseType A B p) ∧
        ∀ m, p < m → m < d → ¬ typeRank mt ≤ typeRank (eclipseType A B m)) ∧
    (findPreviousEclipseDay A B d mt = none ↔
        ∀ m, max 0 (d - 2 * calculateLCM A.period B.period) ≤ m → m < d →
          ¬ typeRank mt ≤ typeRank (eclipseType A B m)) := by
  have hC : (0 : ℤ) ≤ calculateLCM A.period B.period := Int.natCast_nonneg _
  have hfuel : ((2 * calculateLCM A.period B.period).toNat : ℤ) =
      2 * calculateLCM A.period B.period := Int.toNat_of_nonneg (by omega)
  refine ⟨?_, ?_, ?_, ?_⟩
  · intro n
    unfold findNextEclipseDay
    rw [searchFwd_some_iff]
    constructor
    · rintro ⟨h1, h2, h3, h4⟩
      rw [hfuel] at h2
      refine ⟨by omega, by omega, (sevOk_iff_rank A B mt hmt n).mp h3, ?_⟩
      intro m hm1 hm2 hr
      have hf := h4 m (by omega) hm2
      rw [(sevOk_iff_rank A B mt hmt m).mpr hr] at hf
      exact absurd hf (by decide)
    · rintro ⟨h1, h2, h3, h4⟩
      refine ⟨by omega, by rw [hfuel]; omega, (sevOk_iff_rank A B mt hmt n).mpr h3, ?_⟩
      intro m hm1 hm2
      cases hok : sevOk A B mt m with
      | false => rfl
      | true => exact absurd ((sevOk_iff_rank A B mt hmt m).mp hok) (h4 m (by omega) hm2)
  · unfold findNextEclipseDay
    rw [searchFwd_none_iff]
    constructor
    · intro hall m hm1 hm2 hr
      have hf := hall m (by omega) (by rw [hfuel]; omega)
      rw [(sevOk_iff_rank A B mt hmt m).mpr hr] at hf
      exact absurd hf (by decide)
    · intro hall m hm1 hm2
      rw [hfuel] at hm2
      cases hok : sevOk A B mt m with
      | false => rfl
      | true => exact absurd ((sevOk_iff_rank A B mt hmt m).mp hok) (hall m (by omega) (by omega))
  · intro p
    unfold findPreviousEclipseDay
    rw [searchBwd_some_iff]
    constructor
    · rintro ⟨h1, h2, h3, h4, h5⟩
      refine ⟨h1, by omega, (sevOk_iff_rank A B mt hmt p).mp h4, ?_⟩
      intro m hm1 hm2 hr
      have hf := h5 m hm1 (by omega)
      rw [(sevOk_iff_rank A B mt hmt m).mpr hr] at hf
      exact absurd hf (by decide)
    · rintro ⟨h1, h2, h3, h4⟩
      refine ⟨h1, by omega, by push_cast [hfuel]; omega,
        (sevOk_iff_rank A B mt hmt p).mpr h3, ?_⟩
      intro m hm1 hm2
      cases hok : sevOk A B mt m with
      | false => rfl
      | true => exact absurd ((sevOk_iff_rank A B mt hmt m).mp hok) (h4 m hm1 (by omega))
  · unfold findPreviousEclipseDay
    rw [searchBwd_none_iff _ _ _ _ (by push_cast [hfuel]; omega)]
    constructor
    · intro hall m hm1 hm2 hr
      have hf := hall m hm1 (by omega)
      rw [(sevOk_iff_rank A B mt hmt m).mpr hr] at hf
      exact absurd hf (by decide)
    · intro hall m hm1 hm2
      cases hok : sevOk A B mt m with
      | false => rfl
      | true => exact absurd ((sevOk_iff_rank A B mt hmt m).mp hok) (hall m hm1 (by omega))

/-- Claim C8 witness: around the adjacent eclipse days 182 and 183 of
the default system, both search characterisations produce the concrete
results `some 183` forward from 182 and `some 182` backward from 183. -/
theorem eclipse_search_witness :
    findNextEclipseDay ralMoon guthayMoon 182 EclipseType.PARTIAL = some 183 ∧
    findPreviousEclipseDay ralMoon guthayMoon 183 EclipseType.PARTIAL = some 182 := by
  have h1 := eclipse_search_amended ralMoon guthayMoon 182 EclipseType.PARTIAL (by decide)
  have h2 := eclipse_search_amended ralMoon guthayMoon 183 EclipseType.PARTIAL (by decide)
  constructor
  · exact (h1.1 183).mpr ⟨by norm_num, by decide,
      by rw [eclipseType_eq_twin]; decide, fun m hm1 hm2 _ => by omega⟩
  · exact (h2.2.2.1 182).mpr ⟨by decide, by norm_num,
      by rw [eclipseType_eq_twin]; decide, fun m hm1 hm2 _ => by omega⟩

/-- Claim C2: for in-range date components over a well-formed schema,
converting to world time and back reproduces the year, month, day,
hour, minute and second. -/
theorem roundtrip_components (cal : CalendarConfig)
    (hsum : cal.daysPerYear = cal.monthLengths.sum)
    (hh : 0 < cal.hoursPerDay) (hm : 0 < cal.minutesPerHour) (hs : 0 < cal.secondsPerMinute)
    (c : DateComponents) (hmo : c.month < cal.monthLengths.length)
    (hd1 : 1 ≤ c.day) (hd2 : c.day ≤ (cal.monthLengths.get ⟨c.month, hmo⟩ : ℤ))
    (hh0 : 0 ≤ c.hour) (hh1 : c.hour < (cal.hoursPerDay : ℤ))
    (hmi0 : 0 ≤ c.minute) (hmi1 : c.minute < (cal.minutesPerHour : ℤ))
    (hs0 : 0 ≤ c.second) (hs1 : c.second < (cal.secondsPerMinute : ℤ))
    (hy : 1 ≤ c.year) :
    ∃ T, componentsToTime cal c = some T ∧
      (timeToComponents cal T).year = c.year ∧
      (timeToComponents cal T).month = some c.month ∧
      (timeToComponents cal T).day = some c.day ∧
      (timeToComponents cal T).hour = c.hour ∧
      (timeToComponents cal T).minute = c.minute ∧
      (timeToComponents cal T).second = c.second := by
  set hpd := (cal.hoursPerDay : ℤ) with hhpd_def
  set mph := (cal.minutesPerHour : ℤ) with hmph_def
  set spm := (cal.secondsPerMinute : ℤ) with hspm_def
  set dpy := (cal.daysPerYear : ℤ) with hdpy_def
  set off := (offsetOf cal.monthLengths c.month : ℤ) with hoff_def
  set mlen := (cal.monthLengths.get ⟨c.month, hmo⟩ : ℤ) with hmlen_def
  have hhpd : (0 : ℤ) < hpd := by rw [hhpd_def]; exact_mod_cast hh
  have hmph0 : (0 : ℤ) < mph := by rw [hmph_def]; exact_mod_cast hm
  have hspm0 : (0 : ℤ) < spm := by rw [hspm_def]; exact_mod_cast hs
  have hoff0 : (0 : ℤ) ≤ off := by rw [hoff_def]; exact Int.natCast_nonneg _
  have hinterval : off + mlen ≤ dpy := by
    rw [hoff_def, hmlen_def, hdpy_def, hsum]
    exact_mod_cast offsetOf_add_get_le cal.monthLengths c.month hmo
  set doy0 := off + (c.day - 1) with hdoy_def
  have hdoy00 : 0 ≤ doy0 := by omega
  have hdoy01 : doy0 < dpy := by omega
  have hdpy0 : (0 : ℤ) < dpy := by omega
  set D := (c.year - 1) * dpy + doy0 with hD_def
  have hD0 : 0 ≤ D := by
    have h1 : 0 ≤ (c.year - 1) * dpy := mul_nonneg (by omega) (by omega)
    omega
  set S := D * secondsPerDay cal + c.hour * (mph * spm) + c.minute * spm + c.second with hS_def
  have hspd : secondsPerDay cal = hpd * (mph * spm) := by
    rw [hhpd_def, hmph_def, hspm_def]
    unfold secondsPerDay
    push_cast
    ring
  have hct : componentsToTime cal c = some (S * 1000) := by
    unfold componentsToTime
    rw [if_pos hmo]
  refine ⟨S * 1000, hct, ?_⟩
  have hts : totalSecondsOf (S * 1000) = S := Int.mul_fdiv_cancel _ (by norm_num)
  have hSnest : S = c.second + spm * (c.minute + mph * (c.hour + hpd * D)) := by
    rw [hS_def, hspd]
    ring
  have hA1 : 0 ≤ c.hour + hpd * D := by
    have := mul_nonneg hhpd.le hD0
    omega
  have hA2 : 0 ≤ c.minute + mph * (c.hour + hpd * D) := by
    have := mul_nonneg hmph0.le hA1
    omega
  obtain ⟨e1m, e1d⟩ :=
    extract_step c.second spm (c.minute + mph * (c.hour + hpd * D)) hspm0 hs0 hs1 hA2
  obtain ⟨e2m, e2d⟩ := extract_step c.minute mph (c.hour + hpd * D) hmph0 hmi0 hmi1 hA1
  obtain ⟨e3m, e3d⟩ := extract_step c.hour hpd D hhpd hh0 hh1 hD0
  obtain ⟨e4m, e4d⟩ := extract_step doy0 dpy (c.year - 1) hdpy0 hdoy00 hdoy01 (by omega)
  have hsec : Int.tmod (totalSecondsOf (S * 1000)) cal.secondsPerMinute = c.second := by
    rw [hts, hSnest, ← hspm_def]
    exact e1m
  have htm : totalMinutesOf cal (S * 1000) = c.minute + mph * (c.hour + hpd * D) := by
    unfold totalMinutesOf
    rw [hts, hSnest, ← hspm_def]
    exact e1d
  have hmin : Int.tmod (totalMinutesOf cal (S * 1000)) cal.minutesPerHour = c.minute := by
    rw [htm, ← hmph_def]
    exact e2m
  have hth : totalHoursOf cal (S * 1000) = c.hour + hpd * D := by
    unfold totalHoursOf
    rw [htm, ← hmph_def]
    exact e2d
  have hhr : Int.tmod (totalHoursOf cal (S * 1000)) cal.hoursPerDay = c.hour := by
    rw [hth, ← hhpd_def]
    exact e3m
  have htd : totalDaysOf cal (S * 1000) = D := by
    unfold totalDaysOf
    rw [hth, ← hhpd_def]
    exact e3d
  have hyear : Int.fdiv (totalDaysOf cal (S * 1000)) cal.daysPerYear + 1 = c.year := by
    rw [htd, ← hdpy_def, hD_def,
      show (c.year - 1) * dpy + doy0 = doy0 + dpy * (c.year - 1) from by ring, e4d]
    omega
  have hdoy : dayOfYear0 cal (S * 1000) = doy0 := by
    unfold dayOfYear0
    rw [htd, ← hdpy_def, hD_def,
      show (c.year - 1) * dpy + doy0 = doy0 + dpy * (c.year - 1) from by ring]
    exact e4m
  have hlo : 0 + (offsetOf cal.monthLengths c.month : ℤ) ≤ doy0 := by
    rw [← hoff_def]
    omega
  have hhi : doy0 < 0 + (offsetOf cal.monthLengths c.month : ℤ) +
      (cal.monthLengths.get ⟨c.month, hmo⟩ : ℤ) := by
    rw [← hoff_def, ← hmlen_def]
    omega
  have hscan : monthScan 0 0 cal.monthLengths doy0 = some (c.month, c.day) := by
    rw [monthScan_of_interval cal.monthLengths c.month hmo 0 0 doy0 hlo hhi]
    simp only [Option.some.injEq, Prod.mk.injEq]
    refine ⟨by omega, ?_⟩
    rw [← hoff_def]
    omega
  unfold timeToComponents
  rw [hdoy, hscan]
  exact ⟨hyear, rfl, rfl, hhr, hmin, hsec⟩

/-- Claim C2 witness: Dark Sun schema, year 14656, month index 4 (the
first intercalary block), day 3, 12:34:56. -/
theorem roundtrip_components_witness :
    componentsToTime darkSunCal ⟨14656, 4, 3, 12, 34, 56⟩ = some 474832586096000 ∧
    (timeToComponents darkSunCal 474832586096000).year = 14656 ∧
    (timeToComponents darkSunCal 474832586096000).month = some 4 ∧
    (timeToComponents darkSunCal 474832586096000).day = some 3 ∧
    (timeToComponents darkSunCal 474832586096000).hour = 12 ∧
    (timeToComponents darkSunCal 474832586096000).minute = 34 ∧
    (timeToComponents darkSunCal 474832586096000).second = 56 := by
  obtain ⟨T, h1, h2, h3, h4, h5, h6, h7⟩ :=
    roundtrip_components darkSunCal (by decide) (by decide) (by decide) (by decide)
      ⟨14656, 4, 3, 12, 34, 56⟩ (by decide) (by decide) (by decide) (by decide) (by decide)
      (by decide) (by decide) (by decide) (by decide) (by decide)
  have h0 : componentsToTime darkSunCal ⟨14656, 4, 3, 12, 34, 56⟩ = some 474832586096000 := by
    decide
  rw [h0] at h1
  injection h1 with hT
  subst hT
  exact ⟨h0, h2, h3, h4, h5, h6, h7⟩

/-- Claim C6: for a non-negative instant the month selected by
`timeToComponents` is exactly the month whose half-open interval
`[dayOffset, dayOffset + length)` contains the 0-based day of year;
in particular a day of year equal to `dayOffset + length` is never
reported as belonging to that month. -/
theorem month_selection_half_open (cal : CalendarConfig) (wt : ℤ) (_hw : 0 ≤ wt)
    (j : ℕ) (hj : j < cal.monthLengths.length) :
    ((timeToComponents cal wt).month = some j ↔
      (offsetOf cal.monthLengths j : ℤ) ≤ dayOfYear0 cal wt ∧
      dayOfYear0 cal wt <
        (offsetOf cal.monthLengths j : ℤ) + (cal.monthLengths.get ⟨j, hj⟩ : ℤ)) ∧
    (dayOfYear0 cal wt =
        (offsetOf cal.monthLengths j : ℤ) + (cal.monthLengths.get ⟨j, hj⟩ : ℤ) →
      (timeToComponents cal wt).month ≠ some j) := by
  have hmain : (timeToComponents cal wt).month = some j ↔
      ((offsetOf cal.monthLengths j : ℤ) ≤ dayOfYear0 cal wt ∧
       dayOfYear0 cal wt <
         (offsetOf cal.monthLengths j : ℤ) + (cal.monthLengths.get ⟨j, hj⟩ : ℤ)) := by
    rw [timeToComponents_month]
    constructor
    · intro h
      rw [Option.map_eq_some'] at h
      obtain ⟨⟨i, d⟩, hscan, hfst⟩ := h
      obtain ⟨k, hk, hik, hlo, hhi, -⟩ := monthScan_some _ _ _ _ _ _ hscan
      have hfst' : i = j := hfst
      have hkj : k = j := by omega
      subst hkj
      have hlo' : 0 + (offsetOf cal.monthLengths k : ℤ) ≤ dayOfYear0 cal wt := hlo
      have hhi' : dayOfYear0 cal wt <
          0 + (offsetOf cal.monthLengths k : ℤ) + (cal.monthLengths.get ⟨k, hj⟩ : ℤ) := hhi
      exact ⟨by omega, by omega⟩
    · rintro ⟨hlo, hhi⟩
      rw [monthScan_of_interval cal.monthLengths j hj 0 0 (dayOfYear0 cal wt)
        (by omega) (by omega)]
      simp
  refine ⟨hmain, fun heq hmonth => ?_⟩
  obtain ⟨h1, h2⟩ := hmain.mp hmonth
  omega

/-- Claim C6 witness: day of year 120 — the exact boundary
`dayOffset + length` of the fourth 30-day month — belongs to month
index 4, the first intercalary block. -/
theorem month_selection_half_open_witness :
    (timeToComponents darkSunCal 10368000000).month = some 4 :=
  ((month_selection_half_open darkSunCal 10368000000 (by norm_num) 4 (by decide)).1).mpr
    (by decide)

end DSR
